import Mathlib

/-!
Verification of the tree-pattern matching engine and its consumers in the
`rushstack` repository: the `MatchTree` matcher, the `no-unsafe-regexp`
ESLint rule adapter, and the `Rush` launcher option normalization.
-/

namespace TreePattern

/-- Scalar values appearing as pattern literals: string, number, boolean
(the supported scalar kinds; equality is strict, no coercion). -/
inductive Scalar where
  | s (v : String)
  | n (v : Int)
  | b (v : Bool)
deriving DecidableEq, Repr

/-- A target tree value: `undef` models a JavaScript `undefined`/absent value;
`scalar` a primitive; `node` a structured object with named fields; `seq` an
ordered sequence of values. -/
inductive Value where
  | undef
  | scalar (x : Scalar)
  | node (fields : List (String × Value))
  | seq (elems : List Value)
deriving Repr

/-- A pattern tree per the spec data model: literal matcher, capture tag
(a leaf), sequence pattern, nested-object pattern. -/
inductive Pattern where
  | lit (x : Scalar)
  | tag (name : String)
  | pseq (elems : List Pattern)
  | pobj (fields : List (String × Pattern))
deriving Repr

/-- The capture table: a mapping from tag name to captured value with unique
keys, in insertion order (models a JS object used as a dictionary). -/
abbrev CaptureTable := List (String × Value)

/-- Look up a key in an association list (models JS property read; `none`
models `undefined`). -/
def getKey {α : Type} : List (String × α) → String → Option α
  | [], _ => none
  | (k, v) :: rest, key => if k = key then some v else getKey rest key

/-- Overwrite or append a key (models JS property assignment: an existing key
keeps its position, a new key is appended). -/
def setKey {α : Type} : List (String × α) → String → α → List (String × α)
  | [], key, v => [(key, v)]
  | (k, w) :: rest, key, v =>
    if k = key then (k, v) :: rest else (k, w) :: setKey rest key v

mutual

/-- Modelled from the spec: the `MatchTree.match` operation of
`@rushstack/tree-pattern` (the matcher implementation is not among the
provided source files; only its consumer is). Follows spec section 4.2:
a capture tag binds the whole target and returns true unconditionally; a
literal matches only a strictly equal scalar; a sequence pattern matches
only a sequence of exactly the same length, each index positionally, failing
fast while keeping captures already written; a nested-object pattern matches
only a structured node exposing every pattern-named key, each field
recursively, ignoring target fields the pattern does not name; a target
missing an expected field or kind is a normal boolean mismatch, never an
error. Returns the boolean result together with the updated capture table. -/
def matchTree : Value → Pattern → CaptureTable → Bool × CaptureTable
  | t, .tag name, ct => (true, setKey ct name t)
  | .scalar y, .lit x, ct => (decide (y = x), ct)
  | _, .lit _, ct => (false, ct)
  | .seq ts, .pseq ps, ct =>
    if ts.length = ps.length then matchSeq ts ps ct else (false, ct)
  | _, .pseq _, ct => (false, ct)
  | .node tfs, .pobj pfs, ct => matchFields tfs pfs ct
  | _, .pobj _, ct => (false, ct)

/-- Modelled from the spec: positional element-by-element matching of a
sequence pattern, short-circuiting on the first mismatching index. -/
def matchSeq : List Value → List Pattern → CaptureTable → Bool × CaptureTable
  | _, [], ct => (true, ct)
  | [], _ :: _, ct => (false, ct)
  | t :: ts, p :: ps, ct =>
    let r := matchTree t p ct
    if r.1 then matchSeq ts ps r.2 else (false, r.2)

/-- Modelled from the spec: matching the fields named by a nested-object
pattern against a target node's fields; a pattern-named key absent from the
target is a normal mismatch. -/
def matchFields :
    List (String × Value) → List (String × Pattern) → CaptureTable →
    Bool × CaptureTable
  | _, [], ct => (true, ct)
  | tfs, (k, p) :: pfs, ct =>
    match getKey tfs k with
    | none => (false, ct)
    | some tv =>
      let r := matchTree tv p ct
      if r.1 then matchFields tfs pfs r.2 else (false, r.2)

end

end TreePattern

namespace NoUnsafeRegExp

open TreePattern

/-- The pattern from `no-unsafe-regexp.ts` lines 27-34: a `NewExpression`
whose callee is the identifier `RegExp`, with the whole `arguments` value
captured under the tag `constructorArgs`. -/
def newRegExpPattern : Pattern :=
  .pobj
    [("type", .lit (.s "NewExpression")),
     ("callee",
       .pobj
         [("type", .lit (.s "Identifier")),
          ("name", .lit (.s "RegExp"))]),
     ("arguments", .tag "constructorArgs")]

/-- One diagnostic record handed to the external sink by `context.report`:
the node it is attached to and the message identifier. -/
structure Diagnostic where
  node : Value
  messageId : String
deriving Repr

/-- JavaScript truthiness of the value read off the capture table
(`captures.constructorArgs` in the source); `none` models reading an absent
property, which yields `undefined`. -/
def truthy : Option Value → Bool
  | none => false
  | some .undef => false
  | some (.scalar (.b b)) => b
  | some (.scalar (.n n)) => decide (n ≠ 0)
  | some (.scalar (.s s)) => decide (s ≠ "")
  | some (.node _) => true
  | some (.seq _) => true

/-- Whether a captured argument node's `type` field is the string
`Literal` (the source compares `captures.constructorArgs[0].type` with
`AST_NODE_TYPES.Literal`): a structural node-kind comparison, independent of
the literal's value. -/
def isLiteralNode : Value → Bool
  | .node fs =>
    match getKey fs "type" with
    | some (.scalar (.s t)) => decide (t = "Literal")
    | _ => false
  | _ => false

/-- The `MatchTree.match` invocation performed for one visited node
(`no-unsafe-regexp.ts` line 72, with the fresh empty `captures` object of
line 71). -/
def ruleMatch (node : Value) : Bool × CaptureTable :=
  matchTree node newRegExpPattern []

/-- The property read `captures.constructorArgs` after the match attempt. -/
def capturedArgs (node : Value) : Option Value :=
  getKey (ruleMatch node).2 "constructorArgs"

/-- The `NewExpression` visit callback from `no-unsafe-regexp.ts` lines
70-83, returning the list of diagnostics reported for this node: report
`error-unsafe-regexp` exactly when the match succeeds, the captured
`constructorArgs` value is truthy, the captured argument list is non-empty
(its `.length > 0` guard; within the declared type the captured value is an
expression array), and the first argument's node kind is not `Literal`. -/
def visitNewExpression (node : Value) : List Diagnostic :=
  if (ruleMatch node).1 && truthy (capturedArgs node) then
    match capturedArgs node with
    | some (.seq (a :: _)) =>
      if isLiteralNode a then []
      else [{ node := node, messageId := "error-unsafe-regexp" }]
    | _ => []
  else []

end NoUnsafeRegExp

namespace RushLib

/-- Models the external `IBuiltInPluginConfiguration` collaborator type; only
its identity matters to option normalization. -/
structure IBuiltInPluginConfiguration where
  id : Nat
deriving DecidableEq, Repr

/-- Models the external `ITerminalProvider` collaborator type; only its
identity matters to option normalization. -/
structure ITerminalProvider where
  id : Nat
deriving DecidableEq, Repr

/-- The `ILaunchOptions` interface from the `Rush` launcher source:
`isManaged` is required, the remaining fields are optional (`none` models an
absent / `undefined` property). -/
structure ILaunchOptions where
  isManaged : Bool
  alreadyReportedNodeTooNewError : Option Bool
  builtInPluginConfigurations : Option (List IBuiltInPluginConfiguration)
  terminalProvider : Option ITerminalProvider
deriving DecidableEq, Repr

/-- The runtime argument actually accepted by `Rush.launch` and
`Rush.launchRushX`: despite the TypeScript annotation, a legacy caller may
pass a boolean (the old `isManaged` flag) in place of the options object. -/
inductive LaunchArg where
  | legacyBool (b : Bool)
  | options (o : ILaunchOptions)
deriving DecidableEq, Repr

/-- `Rush._normalizeLaunchOptions` (lines 145-149): a boolean argument is
wrapped as `\x7b isManaged: arg \x7d`; any non-boolean argument is returned
unchanged. -/
def normalizeLaunchOptions : LaunchArg → ILaunchOptions
  | .legacyBool b =>
    { isManaged := b
      alreadyReportedNodeTooNewError := none
      builtInPluginConfigurations := none
      terminalProvider := none }
  | .options o => o

/-- `Rush.launch` (lines 65-84): the `ILaunchOptions` object the launch
sequence proceeds with after normalization (the banner, migration advisor
and parser invocations are external side effects outside this embedding). -/
def launchOptions (arg : LaunchArg) : ILaunchOptions :=
  normalizeLaunchOptions arg

/-- `Rush.launchRushX` (lines 91-96): the options object passed onward to
`RushXCommandLine._launchRushXInternal`, a shallow copy of the normalized
options. -/
def launchRushXOptions (arg : LaunchArg) : ILaunchOptions :=
  let options := normalizeLaunchOptions arg
  { isManaged := options.isManaged
    alreadyReportedNodeTooNewError := options.alreadyReportedNodeTooNewError
    builtInPluginConfigurations := options.builtInPluginConfigurations
    terminalProvider := options.terminalProvider }

end RushLib

namespace TreePattern

/-- Reading back a key just written returns the written value. -/
theorem getKey_setKey_self {α : Type} (l : List (String × α)) (k : String) (v : α) :
    getKey (setKey l k v) k = some v := by
  induction l with
  | nil => simp [setKey, getKey]
  | cons hd tl ih =>
    obtain ⟨k₁, w⟩ := hd
    by_cases hk : k₁ = k
    · simp [setKey, hk, getKey]
    · simp [setKey, hk, getKey, ih]

/-- Writing one key leaves every other key's value unchanged. -/
theorem getKey_setKey_ne {α : Type} (l : List (String × α)) (k k' : String) (v : α)
    (h : k' ≠ k) : getKey (setKey l k v) k' = getKey l k' := by
  induction l with
  | nil => simp [setKey, getKey, Ne.symm h]
  | cons hd tl ih =>
    obtain ⟨k₁, w⟩ := hd
    by_cases hk : k₁ = k
    · subst hk
      simp [setKey, getKey, Ne.symm h]
    · simp [setKey, hk, getKey, ih]

/-- Field matching never reads a target field the pattern does not name:
writing an unnamed key on the target changes neither the boolean result nor
the capture table. -/
theorem matchFields_setKey_unnamed (pfs : List (String × Pattern))
    (tfs : List (String × Value)) (k : String) (v : Value) (ct : CaptureTable)
    (h : k ∉ pfs.map Prod.fst) :
    matchFields (setKey tfs k v) pfs ct = matchFields tfs pfs ct := by
  induction pfs generalizing ct with
  | nil => simp [matchFields]
  | cons hd tl ih =>
    obtain ⟨k₁, p⟩ := hd
    simp only [List.map_cons, List.mem_cons, not_or] at h
    obtain ⟨hk₁, htl⟩ := h
    have hget : getKey (setKey tfs k v) k₁ = getKey tfs k₁ :=
      getKey_setKey_ne tfs k k₁ v (fun he => hk₁ he.symm)
    simp only [matchFields, hget]
    cases getKey tfs k₁ with
    | none => rfl
    | some tv =>
      simp only []
      cases (matchTree tv p ct).1 with
      | false => simp
      | true => simpa using ih (matchTree tv p ct).2 htl

/-- A sequence match that succeeds matched every index positionally: for
each index there is a capture-table state at which the element pattern
matched the element at the same index. -/
theorem matchSeq_true_each (ps : List Pattern) (ts : List Value) (ct : CaptureTable)
    (h : (matchSeq ts ps ct).1 = true) :
    ∀ i (hi : i < ps.length) (hi' : i < ts.length),
      ∃ ct', (matchTree (ts.get ⟨i, hi'⟩) (ps.get ⟨i, hi⟩) ct').1 = true := by
  induction ps generalizing ts ct with
  | nil => intro i hi; exact absurd hi (Nat.not_lt_zero i)
  | cons p tl ih =>
    intro i hi hi'
    cases ts with
    | nil => simp [matchSeq] at h
    | cons t ts =>
      rw [matchSeq] at h
      cases hr : (matchTree t p ct).1 with
      | false => simp [hr] at h
      | true =>
        simp only [hr, if_true] at h
        cases i with
        | zero => exact ⟨ct, hr⟩
        | succ n =>
          exact ih ts (matchTree t p ct).2 h n (Nat.lt_of_succ_lt_succ hi)
            (Nat.lt_of_succ_lt_succ hi')

/-- C3: every target value placed at a capture-tag position matches
unconditionally (result `true`) and is bound whole under the tag name in the
capture table; in particular a tag positioned where the target is a sequence
captures the entire sequence, not its elements. -/
theorem tag_captures_whole_target (name : String) (t : Value) (ct : CaptureTable) :
    matchTree t (.tag name) ct = (true, setKey ct name t) ∧
    getKey (matchTree t (.tag name) ct).2 name = some t ∧
    (∀ elems : List Value,
      matchTree (.seq elems) (.tag name) ct = (true, setKey ct name (.seq elems)) ∧
      getKey (matchTree (.seq elems) (.tag name) ct).2 name = some (.seq elems)) := by
  refine ⟨?_, ?_, fun elems => ⟨?_, ?_⟩⟩ <;>
    cases t <;> simp [matchTree, getKey_setKey_self]

/-- C4: a sequence pattern of length N matches no target sequence of length
different from N (for any N, including 0); it matches only a target that is a
sequence of exactly equal length with every index matching positionally. -/
theorem pseq_strict_length (ps : List Pattern) (ts : List Value) (ct : CaptureTable) :
    (ts.length ≠ ps.length → (matchTree (.seq ts) (.pseq ps) ct).1 = false) ∧
    ((matchTree (.seq ts) (.pseq ps) ct).1 = true →
      ts.length = ps.length ∧
      ∀ i (hi : i < ps.length) (hi' : i < ts.length),
        ∃ ct', (matchTree (ts.get ⟨i, hi'⟩) (ps.get ⟨i, hi⟩) ct').1 = true) ∧
    (∀ t : Value, (matchTree t (.pseq ps) ct).1 = true → ∃ us, t = Value.seq us) := by
  refine ⟨?_, ?_, ?_⟩
  · intro h
    simp [matchTree, h]
  · intro h
    by_cases hl : ts.length = ps.length
    · refine ⟨hl, ?_⟩
      simp only [matchTree, hl, if_true] at h
      exact matchSeq_true_each ps ts ct h
    · exfalso
      simp [matchTree, hl] at h
  · intro t ht
    cases t with
    | seq us => exact ⟨us, rfl⟩
    | undef => simp [matchTree] at ht
    | scalar x => simp [matchTree] at ht
    | node fs => simp [matchTree] at ht

/-- Closed witness for the C4 theorem: a one-element sequence pattern
rejects the empty target sequence, a successful concrete sequence match has
equal lengths, and a scalar target is never a sequence match. -/
theorem pseq_strict_length_witness :
    ((List.length ([] : List Value) ≠ List.length [Pattern.tag "a"]) ∧
      (matchTree (.seq []) (.pseq [Pattern.tag "a"]) []).1 = false) ∧
    ((matchTree (.seq [Value.undef]) (.pseq [Pattern.tag "a"]) []).1 = true ∧
      List.length [Value.undef] = List.length [Pattern.tag "a"]) ∧
    ((matchTree (.scalar (.n 3)) (.pseq [Pattern.tag "a"]) []).1 = true →
      ∃ us, Value.scalar (.n 3) = Value.seq us) :=
  ⟨⟨by decide, (pseq_strict_length [Pattern.tag "a"] [] []).1 (by decide)⟩,
   ⟨by decide,
    ((pseq_strict_length [Pattern.tag "a"] [Value.undef] []).2.1 (by decide)).1⟩,
   fun h => (pseq_strict_length [Pattern.tag "a"] [] []).2.2 _ h⟩

/-- C5: adding or changing a target field that a nested-object pattern does
not name never changes the boolean match result (open / subset matching:
only pattern-named keys are inspected). -/
theorem subset_field_independence (pfs : List (String × Pattern))
    (tfs : List (String × Value)) (k : String) (v : Value) (ct : CaptureTable)
    (h : k ∉ pfs.map Prod.fst) :
    (matchTree (.node (setKey tfs k v)) (.pobj pfs) ct).1 =
      (matchTree (.node tfs) (.pobj pfs) ct).1 := by
  simp [matchTree, matchFields_setKey_unnamed pfs tfs k v ct h]

/-- Closed witness for the C5 theorem: adding the unrelated field `extra` to
a target node leaves a concrete nested-object match result unchanged. -/
theorem subset_field_independence_witness :
    ("extra" ∉ ([("type", Pattern.lit (.s "X"))].map Prod.fst)) ∧
    (matchTree
        (.node (setKey [("type", Value.scalar (.s "X"))] "extra" (Value.scalar (.n 1))))
        (.pobj [("type", Pattern.lit (.s "X"))]) []).1 =
      (matchTree (.node [("type", Value.scalar (.s "X"))])
        (.pobj [("type", Pattern.lit (.s "X"))]) []).1 :=
  ⟨by decide, subset_field_independence _ _ _ _ _ (by decide)⟩

/-- C6: matching is deterministic and idempotent: two invocations of
`matchTree` on the same target and pattern, each with a fresh empty capture
table, yield identical boolean results and identical capture tables (the
embedding is a pure function of its inputs, matching the source's lack of
any state shared between invocations). -/
theorem match_deterministic (t : Value) (p : Pattern) :
    (matchTree t p []).1 = (matchTree t p []).1 ∧
    (matchTree t p []).2 = (matchTree t p []).2 :=
  ⟨rfl, rfl⟩

/-- C7: a concrete pattern holding a capture tag `a` followed in traversal
order by a literal check that fails against the target: the match returns
`false`, yet `a` stays bound in the capture table to the value captured
before the failing check — no rollback on failure. -/
theorem no_rollback_on_failure :
    matchTree (.seq [.scalar (.n 1), .scalar (.s "y")])
        (.pseq [.tag "a", .lit (.s "x")]) [] =
      (false, [("a", Value.scalar (.n 1))]) ∧
    getKey (matchTree (.seq [.scalar (.n 1), .scalar (.s "y")])
        (.pseq [.tag "a", .lit (.s "x")]) []).2 "a" =
      some (Value.scalar (.n 1)) :=
  ⟨rfl, rfl⟩

/-- C8: a structural mismatch is a normal boolean `false`, never an error:
an absent/`undefined` target fails literal, sequence and nested-object
patterns, and a target node missing a pattern-named field fails the match,
all returning `false` with the capture table untouched (`matchTree` is a
total function, so no evaluation can raise). -/
theorem absence_is_normal_mismatch (x : Scalar) (ps : List Pattern)
    (pfs : List (String × Pattern)) (k : String) (p : Pattern)
    (rest : List (String × Pattern)) (tfs : List (String × Value))
    (ct : CaptureTable) (hk : getKey tfs k = none) :
    matchTree .undef (.lit x) ct = (false, ct) ∧
    matchTree .undef (.pseq ps) ct = (false, ct) ∧
    matchTree .undef (.pobj pfs) ct = (false, ct) ∧
    matchTree (.node tfs) (.pobj ((k, p) :: rest)) ct = (false, ct) := by
  refine ⟨?_, ?_, ?_, ?_⟩ <;> simp [matchTree, matchFields, hk]

/-- Closed witness for the C8 theorem: a target node with no fields fails a
pattern requiring an `arguments` field, returning `false` without error. -/
theorem absence_is_normal_mismatch_witness :
    getKey ([] : List (String × Value)) "arguments" = none ∧
    matchTree (.node []) (.pobj [("arguments", Pattern.tag "a")]) [] = (false, []) :=
  ⟨rfl,
   (absence_is_normal_mismatch (.s "z") [] [] "arguments" (Pattern.tag "a") [] [] []
     rfl).2.2.2⟩

end TreePattern

namespace NoUnsafeRegExp

open TreePattern

/-- Sample AST: `new RegExp(userInput)` — a `NewExpression` whose first
argument is an identifier, not a literal. -/
def unsafeCallNode : Value :=
  .node
    [("type", .scalar (.s "NewExpression")),
     ("callee",
       .node
         [("type", .scalar (.s "Identifier")),
          ("name", .scalar (.s "RegExp"))]),
     ("arguments",
       .seq
         [.node
           [("type", .scalar (.s "Identifier")),
            ("name", .scalar (.s "userInput"))]])]

/-- Sample AST: `new RegExp(123)` — the first argument is a `Literal` node
whose value is a number, not a string (the check is on node kind only). -/
def numericLiteralCallNode : Value :=
  .node
    [("type", .scalar (.s "NewExpression")),
     ("callee",
       .node
         [("type", .scalar (.s "Identifier")),
          ("name", .scalar (.s "RegExp"))]),
     ("arguments",
       .seq
         [.node
           [("type", .scalar (.s "Literal")),
            ("value", .scalar (.n 123))]])]

/-- Sample AST: `new RegExp()` — a matching call with zero arguments. -/
def zeroArgCallNode : Value :=
  .node
    [("type", .scalar (.s "NewExpression")),
     ("callee",
       .node
         [("type", .scalar (.s "Identifier")),
          ("name", .scalar (.s "RegExp"))]),
     ("arguments", .seq [])]

/-- C1: for a visited `NewExpression` whose captured `constructorArgs` is an
argument sequence, exactly one `error-unsafe-regexp` diagnostic attached to
the visited node is emitted iff the match succeeded, the sequence is
non-empty, and the first argument's node kind is not `Literal`; an empty
argument sequence or a failed match emits nothing. -/
theorem noUnsafeRegExp_emits_iff (node : Value) :
    (∀ a as, capturedArgs node = some (Value.seq (a :: as)) →
      visitNewExpression node =
        if (ruleMatch node).1 && !(isLiteralNode a) then
          [{ node := node, messageId := "error-unsafe-regexp" }]
        else []) ∧
    (capturedArgs node = some (Value.seq []) → visitNewExpression node = []) ∧
    ((ruleMatch node).1 = false → visitNewExpression node = []) := by
  refine ⟨?_, ?_, ?_⟩
  · intro a as h
    simp only [visitNewExpression, h, truthy]
    cases h1 : (ruleMatch node).1 <;> cases h2 : isLiteralNode a <;> simp [h1, h2]
  · intro h
    simp [visitNewExpression, h, truthy]
  · intro h
    simp [visitNewExpression, h]

/-- Closed witness for the C1 theorem: on `new RegExp(userInput)` the match
succeeds, the captured argument list is one non-literal identifier, and
exactly one `error-unsafe-regexp` diagnostic attached to the node comes
out. -/
theorem noUnsafeRegExp_emits_iff_witness :
    visitNewExpression unsafeCallNode =
      [{ node := unsafeCallNode, messageId := "error-unsafe-regexp" }] := by
  rw [(noUnsafeRegExp_emits_iff unsafeCallNode).1
    (.node [("type", .scalar (.s "Identifier")), ("name", .scalar (.s "userInput"))])
    [] rfl]
  rfl

/-- C2: for a visited `NewExpression` whose match succeeds, no diagnostic is
emitted when the call has zero arguments or when the first argument's node
kind is `Literal` — a structural kind comparison only, so any `Literal`
node stays silent whatever its `value` holds. -/
theorem noUnsafeRegExp_literal_first_silent (node : Value) :
    (capturedArgs node = some (Value.seq []) → visitNewExpression node = []) ∧
    (∀ a as, capturedArgs node = some (Value.seq (a :: as)) →
      isLiteralNode a = true → visitNewExpression node = []) ∧
    (∀ fs as, capturedArgs node =
        some (Value.seq (Value.node (("type", Value.scalar (.s "Literal")) :: fs) :: as)) →
      visitNewExpression node = []) := by
  refine ⟨?_, ?_, ?_⟩
  · intro h
    simp [visitNewExpression, h, truthy]
  · intro a as h h2
    simp [visitNewExpression, h, truthy, h2]
  · intro fs as h
    simp [visitNewExpression, h, truthy, isLiteralNode, getKey]

/-- Closed witness for the C2 theorem: `new RegExp()` and `new RegExp(123)`
(a non-string `Literal` first argument) both emit no diagnostic. -/
theorem noUnsafeRegExp_literal_first_silent_witness :
    visitNewExpression zeroArgCallNode = [] ∧
    visitNewExpression numericLiteralCallNode = [] :=
  ⟨(noUnsafeRegExp_literal_first_silent zeroArgCallNode).1 rfl,
   (noUnsafeRegExp_literal_first_silent numericLiteralCallNode).2.2
     [("value", .scalar (.n 123))] [] rfl⟩

/-- C9: the guards in the rule adapter make the element-0 access safe in
every execution: when the captured `constructorArgs` value is absent/falsy
or an empty sequence nothing is emitted even if the match succeeded, and a
diagnostic can only come out when the match succeeded and the captured
value is a sequence with a first element. -/
theorem noUnsafeRegExp_guarded_access (node : Value) :
    (truthy (capturedArgs node) = false → visitNewExpression node = []) ∧
    (capturedArgs node = some (Value.seq []) → visitNewExpression node = []) ∧
    (visitNewExpression node ≠ [] →
      (ruleMatch node).1 = true ∧
      ∃ a as, capturedArgs node = some (Value.seq (a :: as))) := by
  refine ⟨?_, ?_, ?_⟩
  · intro h
    simp [visitNewExpression, h]
  · intro h
    simp [visitNewExpression, h, truthy]
  · intro hne
    cases h1 : (ruleMatch node).1 with
    | false => exact absurd (by simp [visitNewExpression, h1]) hne
    | true =>
      refine ⟨rfl, ?_⟩
      cases hc : capturedArgs node with
      | none => exact absurd (by simp [visitNewExpression, h1, hc, truthy]) hne
      | some v =>
        cases v with
        | undef => exact absurd (by simp [visitNewExpression, h1, hc, truthy]) hne
        | scalar x => exact absurd (by simp [visitNewExpression, h1, hc]) hne
        | node fs => exact absurd (by simp [visitNewExpression, h1, hc]) hne
        | seq elems =>
          cases elems with
          | nil => exact absurd (by simp [visitNewExpression, h1, hc]) hne
          | cons a as => exact ⟨a, as, rfl⟩

/-- Closed witness for the C9 theorem: on `new RegExp(userInput)` a
diagnostic is emitted, so the match succeeded and the captured value is a
non-empty sequence. -/
theorem noUnsafeRegExp_guarded_access_witness :
    (ruleMatch unsafeCallNode).1 = true ∧
    ∃ a as, capturedArgs unsafeCallNode = some (Value.seq (a :: as)) :=
  (noUnsafeRegExp_guarded_access unsafeCallNode).2.2 (by
    rw [show visitNewExpression unsafeCallNode =
      [{ node := unsafeCallNode, messageId := "error-unsafe-regexp" }] from rfl]
    exact fun h => List.noConfusion h)

end NoUnsafeRegExp

namespace RushLib

/-- C10: `Rush.launch` and `Rush.launchRushX` accept a legacy boolean in
place of the `ILaunchOptions` object: `_normalizeLaunchOptions` maps a
boolean `b` to an options object with `isManaged := b` and returns any
non-boolean argument unchanged, so both call forms proceed with an
equivalent options object. -/
theorem launch_normalizes_legacy_boolean (b : Bool) (o : ILaunchOptions) :
    normalizeLaunchOptions (.legacyBool b) =
      { isManaged := b
        alreadyReportedNodeTooNewError := none
        builtInPluginConfigurations := none
        terminalProvider := none } ∧
    normalizeLaunchOptions (.options o) = o ∧
    launchOptions (.legacyBool b) =
      launchOptions (.options
        { isManaged := b
          alreadyReportedNodeTooNewError := none
          builtInPluginConfigurations := none
          terminalProvider := none }) ∧
    launchRushXOptions (.legacyBool b) =
      launchRushXOptions (.options
        { isManaged := b
          alreadyReportedNodeTooNewError := none
          builtInPluginConfigurations := none
          terminalProvider := none }) ∧
    launchRushXOptions (.options o) = o :=
  ⟨rfl, rfl, rfl, rfl, rfl⟩

end RushLib
